import Mathlib

/-
Verification development for the pdp11-sim repository: a PDP-11 subset
instruction-set simulator (pdp11-sim.c) together with a four-way
set-associative write-back cache directory simulator with pseudo-LRU
replacement (the unnamed cache source file).

The definitions below are a shallow embedding of the C sources.  C `uint16_t`
cells (memory words and registers) are modelled as natural numbers kept below
2^16 by masking every store, exactly as the C assignments truncate.  C `int`
intermediates are modelled as `Nat` where they are provably non-negative and
as `Int` where signed arithmetic matters, with `u16` playing the role of the
cast back to `uint16_t`.  A C `assert` failure, `exit(1)` and undefined
behavior such as division by zero are all modelled as `none` of an `Option`.
-/

namespace PDP11

/-- Memory size in the source: `#define MEMSIZE (32*1024)`. -/
def MEMSIZE : Nat := 32 * 1024

/-- Function update, modelling an assignment to one cell of a C array. -/
def upd (f : Nat → Nat) (i x : Nat) : Nat → Nat := fun j => if j = i then x else f j

/-- Function update for a doubly indexed C array. -/
def upd2 {α : Type} (f : Nat → Nat → α) (i j : Nat) (x : α) : Nat → Nat → α :=
  fun a b => if a = i ∧ b = j then x else f a b

/-- Cast of a C `int` expression to `uint16_t`: the value modulo 2^16. -/
def u16 (x : Int) : Nat := (x % 65536).toNat

/-- Sign extension of the low 8 bits of a word, as the C casts and
shift tricks (`(int8_t)operand`, `offset << 24 >> 24`) compute it. -/
def sign_extend8 (b : Nat) : Int := if b < 128 then (b : Int) else (b : Int) - 256

/-- The C struct `addr_phrase_t`: addressing mode, register number, resolved
byte address (modes 1-7 only) and resolved value. -/
structure AddrPhrase where
  mode : Nat
  reg : Nat
  addr : Nat
  value : Nat

/-- The global state of the simulator: the word memory indexed by byte
address as in the C global `memory`, registers R0-R7 (R7 is the PC), the
four condition codes, the `running` flag and the six statistics counters. -/
structure Machine where
  memory : Nat → Nat
  reg : Nat → Nat
  n : Bool
  z : Bool
  v : Bool
  c : Bool
  running : Bool
  memory_reads : Nat
  memory_writes : Nat
  inst_fetches : Nat
  inst_execs : Nat
  branch_taken : Nat
  branch_execs : Nat

/-- Embedding of `get_operand`.  Each C `assert` on an address or value and
the `exit(1)` of the default case are modelled as `none`.  The repeated
subtraction loop of mode 7 (`while (addr >= MEMSIZE) addr -= MEMSIZE;`)
computes the remainder, embedded as `% MEMSIZE`.  The stale `addr`/`value`
fields of the global phrase structs are never consulted by the C code, so
phrases are passed by value. -/
def get_operand (m : Machine) (ph : AddrPhrase) : Option (Machine × AddrPhrase) :=
  if ph.mode ≤ 7 ∧ ph.reg ≤ 7 then
    match ph.mode with
    | 0 =>
      some (m, { ph with value := m.reg ph.reg })
    | 1 =>
      let addr := m.reg ph.reg
      if addr < MEMSIZE then
        let value := m.memory addr
        if value < 65536 then
          some ({ m with memory_reads := m.memory_reads + 1 },
                { ph with addr := addr, value := value })
        else none
      else none
    | 2 =>
      if ph.reg = 7 then
        let value := m.memory (m.reg 7)
        let m2 := { m with inst_fetches := m.inst_fetches + 1,
                           reg := upd m.reg 7 ((m.reg 7 + 2) % 65536) }
        if value < 65536 then some (m2, { ph with addr := 0, value := value }) else none
      else
        let addr := m.reg ph.reg
        if addr < MEMSIZE then
          let value := m.memory addr
          if value < 65536 then
            some ({ m with memory_reads := m.memory_reads + 1,
                           reg := upd m.reg ph.reg ((m.reg ph.reg + 2) % 65536) },
                  { ph with addr := addr, value := value })
          else none
        else none
    | 3 =>
      if ph.reg = 7 then
        let addr := m.memory (m.reg 7)
        let m2 := { m with memory_reads := m.memory_reads + 1,
                           inst_fetches := m.inst_fetches + 1,
                           reg := upd m.reg 7 ((m.reg 7 + 2) % 65536) }
        if addr < MEMSIZE then
          let value := m2.memory addr
          let m3 := { m2 with memory_reads := m2.memory_reads + 1 }
          if value < 65536 then
            some ({ m3 with reg := upd m3.reg ph.reg ((m3.reg ph.reg + 2) % 65536) },
                  { ph with addr := addr, value := value })
          else none
        else none
      else
        let a0 := m.reg ph.reg
        if a0 < MEMSIZE then
          let addr := m.memory a0
          let m2 := { m with memory_reads := m.memory_reads + 1 }
          if addr < MEMSIZE then
            let value := m2.memory addr
            let m3 := { m2 with memory_reads := m2.memory_reads + 1 }
            if value < 65536 then
              some ({ m3 with reg := upd m3.reg ph.reg ((m3.reg ph.reg + 2) % 65536) },
                    { ph with addr := addr, value := value })
            else none
          else none
        else none
    | 4 =>
      let m2 := { m with reg := upd m.reg ph.reg (u16 ((m.reg ph.reg : Int) - 2)) }
      let addr := m2.reg ph.reg
      if addr < MEMSIZE then
        let value := m2.memory addr
        if value < 65536 then
          some ({ m2 with memory_reads := m2.memory_reads + 1 },
                { ph with addr := addr, value := value })
        else none
      else none
    | 5 =>
      let m2 := { m with reg := upd m.reg ph.reg (u16 ((m.reg ph.reg : Int) - 2)) }
      let a0 := m2.reg ph.reg
      if a0 < MEMSIZE then
        let addr := m2.memory a0
        let m3 := { m2 with memory_reads := m2.memory_reads + 1 }
        if addr < MEMSIZE then
          some ({ m3 with memory_reads := m3.memory_reads + 1 },
                { ph with addr := addr, value := m3.memory addr })
        else none
      else none
    | 6 =>
      let addr := if ph.reg = 7 then m.memory (m.reg 7) + m.reg 7
                  else m.memory (m.reg 7) + m.reg ph.reg
      let m2 := { m with inst_fetches := m.inst_fetches + 1,
                         reg := upd m.reg 7 ((m.reg 7 + 2) % 65536) }
      if addr < MEMSIZE then
        let value := m2.memory addr
        if value < 65536 then
          some ({ m2 with memory_reads := m2.memory_reads + 1 },
                { ph with addr := addr, value := value })
        else none
      else none
    | 7 =>
      if ph.reg = 7 then
        let addr := m.memory (m.reg 7) + m.reg 7
        let m2 := { m with inst_fetches := m.inst_fetches + 1 }
        if addr < MEMSIZE then
          let m3 := { m2 with reg := upd m2.reg 7 ((m2.reg 7 + 2) % 65536) }
          let addr2 := m3.memory addr
          let m4 := { m3 with memory_reads := m3.memory_reads + 1 }
          if addr2 < MEMSIZE then
            let value := m4.memory addr2
            if value < 65536 then
              some ({ m4 with memory_reads := m4.memory_reads + 1 },
                    { ph with addr := addr2, value := value })
            else none
          else none
        else none
      else
        let a0 := m.memory (m.reg 7) + m.reg ph.reg
        let m2 := { m with inst_fetches := m.inst_fetches + 1 }
        let addr := a0 % MEMSIZE
        if addr < MEMSIZE then
          let m3 := { m2 with reg := upd m2.reg 7 ((m2.reg 7 + 2) % 65536) }
          let addr2 := m3.memory addr
          let m4 := { m3 with memory_reads := m3.memory_reads + 1 }
          if addr2 < MEMSIZE then
            let value := m4.memory addr2
            if value < 65536 then
              some ({ m4 with memory_reads := m4.memory_reads + 1 },
                    { ph with addr := addr2, value := value })
            else none
          else none
        else none
    | _ => none
  else none

/-- Embedding of `update_operand`: write the phrase value back.  The entry
asserts on mode and register are the `if`; a mode above 7 falls through the
C switch and changes nothing. -/
def update_operand (m : Machine) (ph : AddrPhrase) : Option Machine :=
  if ph.mode ≤ 7 ∧ ph.reg ≤ 7 then
    match ph.mode with
    | 0 => some { m with reg := upd m.reg ph.reg (ph.value % 65536) }
    | 1 => some { m with memory := upd m.memory ph.addr (ph.value % 65536),
                         memory_writes := m.memory_writes + 1 }
    | 2 =>
      if ph.reg = 7 then some m
      else some { m with memory := upd m.memory ph.addr (ph.value % 65536),
                         memory_writes := m.memory_writes + 1 }
    | 3 => some { m with memory := upd m.memory ph.addr (ph.value % 65536),
                         memory_writes := m.memory_writes + 1 }
    | 4 => some { m with memory := upd m.memory ph.addr (ph.value % 65536),
                         memory_writes := m.memory_writes + 1 }
    | 5 => some { m with memory := upd m.memory ph.addr (ph.value % 65536),
                         memory_writes := m.memory_writes + 1 }
    | 6 => some { m with memory := upd m.memory ph.addr (ph.value % 65536),
                         memory_writes := m.memory_writes + 1 }
    | 7 => some { m with memory := upd m.memory ph.addr (ph.value % 65536),
                         memory_writes := m.memory_writes + 1 }
    | _ => some m
  else none

/-- Embedding of `put_operand`.  Its C body is identical to
`update_operand`: register store for mode 0, nothing for immediate mode
(mode 2 with register 7), a counted memory store everywhere else. -/
def put_operand (m : Machine) (ph : AddrPhrase) : Option Machine :=
  if ph.mode ≤ 7 ∧ ph.reg ≤ 7 then
    match ph.mode with
    | 0 => some { m with reg := upd m.reg ph.reg (ph.value % 65536) }
    | 1 => some { m with memory := upd m.memory ph.addr (ph.value % 65536),
                         memory_writes := m.memory_writes + 1 }
    | 2 =>
      if ph.reg = 7 then some m
      else some { m with memory := upd m.memory ph.addr (ph.value % 65536),
                         memory_writes := m.memory_writes + 1 }
    | 3 => some { m with memory := upd m.memory ph.addr (ph.value % 65536),
                         memory_writes := m.memory_writes + 1 }
    | 4 => some { m with memory := upd m.memory ph.addr (ph.value % 65536),
                         memory_writes := m.memory_writes + 1 }
    | 5 => some { m with memory := upd m.memory ph.addr (ph.value % 65536),
                         memory_writes := m.memory_writes + 1 }
    | 6 => some { m with memory := upd m.memory ph.addr (ph.value % 65536),
                         memory_writes := m.memory_writes + 1 }
    | 7 => some { m with memory := upd m.memory ph.addr (ph.value % 65536),
                         memory_writes := m.memory_writes + 1 }
    | _ => some m
  else none

/-- Source operand phrase from an instruction word:
`src.mode = (operand & 0x0E00) >> 9; src.reg = (operand & 0x01C0) >> 6`. -/
def src_phrase (w : Nat) : AddrPhrase :=
  { mode := (w &&& 0x0E00) >>> 9, reg := (w &&& 0x01C0) >>> 6, addr := 0, value := 0 }

/-- Destination operand phrase from an instruction word:
`dst.mode = (operand & 0x0038) >> 3; dst.reg = operand & 0x0007`. -/
def dst_phrase (w : Nat) : AddrPhrase :=
  { mode := (w &&& 0x0038) >>> 3, reg := w &&& 0x0007, addr := 0, value := 0 }

/-- Embedding of `add`: `dst.value = (dst.value + src.value) & 0xFFFF`,
written back through `update_operand`, with the C flag computations. -/
def add (m : Machine) (w : Nat) : Option Machine :=
  match get_operand m (src_phrase w) with
  | none => none
  | some (m1, sph) =>
    match get_operand m1 (dst_phrase w) with
    | none => none
    | some (m2, dph) =>
      let old_dst := dph.value
      let value := (dph.value + sph.value) &&& 0xFFFF
      match update_operand m2 { dph with value := value } with
      | none => none
      | some m3 =>
        some { m3 with
          n := decide (value >>> 15 ≠ 0),
          z := decide (value = 0),
          v := decide ((old_dst >>> 15) = (sph.value >>> 15) ∧ (value >>> 15) ≠ (sph.value >>> 15)),
          c := decide (value < old_dst) }

/-- Embedding of `asl`: left shift masked to 16 bits, written back through
`update_operand`, with the C flag computations. -/
def asl (m : Machine) (w : Nat) : Option Machine :=
  match get_operand m (dst_phrase w) with
  | none => none
  | some (m1, dph) =>
    let old_value := dph.value
    let value := (old_value <<< 1) &&& 0xFFFF
    match update_operand m1 { dph with value := value } with
    | none => none
    | some m2 =>
      some { m2 with
        n := decide (value &&& 0x8000 ≠ 0),
        z := decide (value = 0),
        v := decide ((old_value &&& 0x8000) ≠ (value &&& 0x8000)),
        c := decide (old_value &&& 0x8000 ≠ 0) }

/-- Result value of `asr`: the C statements `sign_bit = v & 0x8000;
v = v >> 1; v = v | sign_bit; v = v & 0xFFFF` as one expression. -/
def asr_result (old : Nat) : Nat := ((old >>> 1) ||| (old &&& 0x8000)) &&& 0xFFFF

/-- Embedding of `asr`: arithmetic right shift written back through
`update_operand`, with the C flag computations (note that the C overflow
flag compares the old and new sign bits). -/
def asr (m : Machine) (w : Nat) : Option Machine :=
  match get_operand m (dst_phrase w) with
  | none => none
  | some (m1, dph) =>
    let old_value := dph.value
    let value := asr_result old_value
    match update_operand m1 { dph with value := value } with
    | none => none
    | some m2 =>
      some { m2 with
        n := decide (value &&& 0x8000 ≠ 0),
        z := decide (value = 0),
        v := decide ((old_value &&& 0x8000) ≠ (value &&& 0x8000)),
        c := decide (old_value &&& 0x0001 ≠ 0) }

/-- Embedding of `beq`: branch on Z with an 8-bit sign-extended offset,
`reg[7] = (reg[7] + (offset << 1)) & 0177777` when taken. -/
def beq (m : Machine) (w : Nat) : Machine :=
  let offset := sign_extend8 (w &&& 0o377)
  let m2 := if m.z then
      { m with reg := upd m.reg 7 (u16 ((m.reg 7 : Int) + offset * 2)),
               branch_taken := m.branch_taken + 1 }
    else m
  { m2 with branch_execs := m2.branch_execs + 1 }

/-- Embedding of `bne`: branch on not-Z with an 8-bit sign-extended offset. -/
def bne (m : Machine) (w : Nat) : Machine :=
  let offset := sign_extend8 (w &&& 0o377)
  let m2 := if ¬ m.z then
      { m with reg := upd m.reg 7 (u16 ((m.reg 7 : Int) + offset * 2)),
               branch_taken := m.branch_taken + 1 }
    else m
  { m2 with branch_execs := m2.branch_execs + 1 }

/-- Embedding of `br`: unconditional branch, `reg[7] += 2 * (int8_t)operand`. -/
def br (m : Machine) (w : Nat) : Machine :=
  let m2 := { m with reg := upd m.reg 7 (u16 ((m.reg 7 : Int) + 2 * sign_extend8 (w &&& 0xFF))) }
  { m2 with branch_taken := m2.branch_taken + 1, branch_execs := m2.branch_execs + 1 }

/-- Embedding of `cmp`: `result = src.value - dst.value` as `uint16_t`;
flags set from the C expressions; nothing is written back. -/
def cmp (m : Machine) (w : Nat) : Option Machine :=
  match get_operand m (src_phrase w) with
  | none => none
  | some (m1, sph) =>
    match get_operand m1 (dst_phrase w) with
    | none => none
    | some (m2, dph) =>
      let result := u16 ((sph.value : Int) - (dph.value : Int))
      some { m2 with
        n := decide (result &&& 0x8000 ≠ 0),
        z := decide (result = 0),
        v := decide ((sph.value &&& 0x8000) ≠ (dph.value &&& 0x8000)),
        c := decide (sph.value < dph.value) }

/-- Embedding of `halt`: clear the running flag. -/
def halt (m : Machine) : Machine := { m with running := false }

/-- Embedding of `mov`: copy the source value; when the destination is a
register other than R0 (mode 0, reg > 0) the C code keeps only the low
byte sign-extended into bits 15-8; store through `put_operand`; flags from
the stored value with V = C = 0. -/
def mov (m : Machine) (w : Nat) : Option Machine :=
  match get_operand m (src_phrase w) with
  | none => none
  | some (m1, sph) =>
    match get_operand m1 (dst_phrase w) with
    | none => none
    | some (m2, dph) =>
      let v0 := sph.value
      let v1 := if dph.mode = 0 ∧ dph.reg ≠ 0 then
          (if (v0 &&& 0x00FF) &&& 0x0080 ≠ 0 then (v0 &&& 0x00FF) ||| 0xFF00 else v0 &&& 0x00FF)
        else v0
      match put_operand m2 { dph with value := v1 } with
      | none => none
      | some m3 =>
        some { m3 with
          n := decide ((v1 &&& 0x8000) >>> 15 ≠ 0),
          z := decide (v1 = 0),
          v := false,
          c := false }

/-- Embedding of `sob`: `reg_index = operand & 0x0007; offset = operand &
0x003F; reg[reg_index]--` and branch back by `2*offset` when the decremented
register is nonzero. -/
def sob (m : Machine) (w : Nat) : Machine :=
  let reg_index := w &&& 0x0007
  let offset := w &&& 0x003F
  let m1 := { m with reg := upd m.reg reg_index (u16 ((m.reg reg_index : Int) - 1)) }
  let m2 := if m1.reg reg_index ≠ 0 then
      { m1 with reg := upd m1.reg 7 (u16 ((m1.reg 7 : Int) - 2 * offset)),
                branch_taken := m1.branch_taken + 1 }
    else m1
  { m2 with branch_execs := m2.branch_execs + 1 }

/-- Embedding of `sub`: `result = (dst.value - src.value) & 0xFFFF`; the C
code stores to `reg[dst.reg]` in mode 0 and otherwise directly to
`memory[dst.value]` (sic, the value, not the address) without counting a
memory write; flags from the C xor expressions. -/
def sub (m : Machine) (w : Nat) : Option Machine :=
  match get_operand m (src_phrase w) with
  | none => none
  | some (m1, sph) =>
    match get_operand m1 (dst_phrase w) with
    | none => none
    | some (m2, dph) =>
      let result := u16 ((dph.value : Int) - (sph.value : Int)) &&& 0xFFFF
      let m3 := if dph.mode = 0 then
          { m2 with reg := upd m2.reg dph.reg (result % 65536) }
        else
          { m2 with memory := upd m2.memory dph.value (result % 65536) }
      some { m3 with
        n := decide ((result &&& 0x8000) >>> 15 ≠ 0),
        z := decide (result = 0),
        v := decide ((((dph.value &&& 0x8000) >>> 15) ^^^ ((sph.value &&& 0x8000) >>> 15) ^^^ ((result &&& 0x8000) >>> 15)) ≠ 0),
        c := decide ((((dph.value &&& 0x8000) >>> 15) ^^^ ((sph.value &&& 0x8000) >>> 15) ^^^ ((result &&& 0x8000) >>> 15)) ≠ 0) }

/-- Embedding of `operate`: the dispatcher.  An unmatched word is the fatal
decode error (`none`); a successful dispatch increments `inst_execs` and
`inst_fetches` once. -/
def operate (m : Machine) (w : Nat) : Option Machine :=
  (if (w &&& 0xF000) >>> 12 = 0o01 then mov m w
   else if (w &&& 0xF000) >>> 12 = 0o02 then cmp m w
   else if (w &&& 0xF000) >>> 12 = 0o06 then add m w
   else if (w &&& 0xF000) >>> 12 = 0o16 then sub m w
   else if (w &&& 0xFE00) >>> 9 = 0o77 then some (sob m w)
   else if (w &&& 0xFF00) >>> 8 = 0o001 then some (br m w)
   else if (w &&& 0xFF00) >>> 8 = 0o002 then some (bne m w)
   else if (w &&& 0xFF00) >>> 8 = 0o003 then some (beq m w)
   else if (w &&& 0xFFC0) >>> 6 = 0o0062 then asr m w
   else if (w &&& 0xFFC0) >>> 6 = 0o0063 then asl m w
   else if w = 0 then some (halt m)
   else none).map
    (fun m2 => { m2 with inst_execs := m2.inst_execs + 1, inst_fetches := m2.inst_fetches + 1 })

/-- Outcome of one iteration of the driver loop. -/
inductive StepRes where
  | next (m : Machine)
  | stopped (m : Machine)
  | fatal

/-- One iteration of the `while (reg[7] < MEMSIZE && running)` loop of
`main`: fetch `memory[reg[7]]`, advance the PC by 2, dispatch, then apply
the `PC out of bounds` fatal check. -/
def step (m : Machine) : StepRes :=
  if m.reg 7 < MEMSIZE ∧ m.running then
    let instruction := m.memory (m.reg 7)
    let m1 := { m with reg := upd m.reg 7 ((m.reg 7 + 2) % 65536) }
    match operate m1 instruction with
    | none => StepRes.fatal
    | some m2 => if MEMSIZE ≤ m2.reg 7 then StepRes.fatal else StepRes.next m2
  else StepRes.stopped m

/-- Outcome of the whole driver loop. -/
inductive RunRes where
  | finished (m : Machine)
  | fatal
  | out_of_fuel

/-- Fuel-bounded iteration of the driver loop.  `finished` is the clean loop
exit that reaches the statistics dump. -/
def run : Nat → Machine → RunRes
  | 0, _ => RunRes.out_of_fuel
  | fuel + 1, m =>
    match step m with
    | StepRes.next m2 => run fuel m2
    | StepRes.stopped m2 => RunRes.finished m2
    | StepRes.fatal => RunRes.fatal

/-- Memory image built by the input loop of `main`: the k-th input word is
stored at index 2k (`memory[i] = ...; i += 2`), masked by the `uint16_t`
cast of `strtol`; all other cells are zero. -/
def load_words : List Nat → Nat → (Nat → Nat)
  | [], _ => fun _ => 0
  | wrd :: ws, i => fun a => if a = i then wrd % 65536 else load_words ws (i + 2) a

/-- Initial machine state of `main`: zero registers and flags, loaded
memory, running, zero counters, PC = 0. -/
def init_machine (ws : List Nat) : Machine :=
  { memory := load_words ws 0, reg := fun _ => 0,
    n := false, z := false, v := false, c := false, running := true,
    memory_reads := 0, memory_writes := 0, inst_fetches := 0, inst_execs := 0,
    branch_taken := 0, branch_execs := 0 }

/-- Percentage printed by `pstats`: `(branch_taken * 100) / branch_execs`
in C integer arithmetic.  Division by zero is undefined behavior in C (it
aborts the process on common targets), modelled as `none`. -/
def pstats_percent (m : Machine) : Option Nat :=
  if m.branch_execs = 0 then none else some ((m.branch_taken * 100) / m.branch_execs)

/-- Projection of a clean loop exit. -/
def finished_machine : RunRes → Option Machine
  | RunRes.finished m => some m
  | _ => none

/-- Projection of a continuing step. -/
def next_machine : StepRes → Option Machine
  | StepRes.next m => some m
  | _ => none

/-- Cache directory state: per-set PLRU state and per-bank-per-set valid,
dirty and tag arrays, plus the five counters.  The C arrays hold 0/1
unsigned ints for valid and dirty, modelled as Bool. -/
structure Cache where
  plru_state : Nat → Nat
  valid : Nat → Nat → Bool
  dirty : Nat → Nat → Bool
  tag : Nat → Nat → Nat
  cache_reads : Nat
  cache_writes : Nat
  hits : Nat
  misses : Nat
  write_backs : Nat

/-- The `plru_bank` table `{ 0, 0, 1, 1, 2, 3, 2, 3 }` (bank replacement
choice by state; the state is always 0..7). -/
def plru_bank : Nat → Nat
  | 0 => 0 | 1 => 0 | 2 => 1 | 3 => 1 | 4 => 2 | 5 => 3 | 6 => 2 | 7 => 3 | _ => 0

/-- The `next_state` table, indexed by `(state << 2) | bank`. -/
def next_state : Nat → Nat
  | 0 => 6 | 1 => 4 | 2 => 1 | 3 => 0
  | 4 => 7 | 5 => 5 | 6 => 1 | 7 => 0
  | 8 => 6 | 9 => 4 | 10 => 3 | 11 => 2
  | 12 => 7 | 13 => 5 | 14 => 3 | 15 => 2
  | 16 => 6 | 17 => 4 | 18 => 1 | 19 => 0
  | 20 => 7 | 21 => 5 | 22 => 1 | 23 => 0
  | 24 => 6 | 25 => 4 | 26 => 3 | 27 => 2
  | 28 => 7 | 29 => 5 | 30 => 3 | 31 => 2
  | _ => 0

/-- Embedding of `cache_init`: all directory bits and counters zero. -/
def cache_init : Cache :=
  { plru_state := fun _ => 0, valid := fun _ _ => false,
    dirty := fun _ _ => false, tag := fun _ _ => 0,
    cache_reads := 0, cache_writes := 0, hits := 0, misses := 0, write_backs := 0 }

/-- Common tail of `cache_access`: the PLRU next-state update for the set
and the dirty-bit update on a write. -/
def access_tail (cc : Cache) (addr_index bank ty : Nat) : Cache :=
  let c1 := { cc with plru_state := upd cc.plru_state addr_index
                        (next_state ((cc.plru_state addr_index <<< 2) ||| bank)) }
  if ty = 1 then { c1 with dirty := upd2 c1.dirty bank addr_index true } else c1

/-- Embedding of `cache_access`.  `address` is the byte address, `ty` is
read (0) or write (1): count the access, probe the four banks in order,
otherwise count a miss, choose the lowest invalid bank or the PLRU victim,
count a write back for a valid dirty victim, install the line, then update
the PLRU state and, on a write, the dirty bit. -/
def cache_access (c0 : Cache) (address ty : Nat) : Cache :=
  let cc := if ty = 0 then { c0 with cache_reads := c0.cache_reads + 1 }
            else { c0 with cache_writes := c0.cache_writes + 1 }
  let addr_index := (address >>> 5) &&& 0x1f
  let addr_tag := address >>> 10
  if cc.valid 0 addr_index = true ∧ addr_tag = cc.tag 0 addr_index then
    access_tail { cc with hits := cc.hits + 1 } addr_index 0 ty
  else if cc.valid 1 addr_index = true ∧ addr_tag = cc.tag 1 addr_index then
    access_tail { cc with hits := cc.hits + 1 } addr_index 1 ty
  else if cc.valid 2 addr_index = true ∧ addr_tag = cc.tag 2 addr_index then
    access_tail { cc with hits := cc.hits + 1 } addr_index 2 ty
  else if cc.valid 3 addr_index = true ∧ addr_tag = cc.tag 3 addr_index then
    access_tail { cc with hits := cc.hits + 1 } addr_index 3 ty
  else
    let c1 := { cc with misses := cc.misses + 1 }
    let bank :=
      if c1.valid 0 addr_index = false then 0
      else if c1.valid 1 addr_index = false then 1
      else if c1.valid 2 addr_index = false then 2
      else if c1.valid 3 addr_index = false then 3
      else plru_bank (c1.plru_state addr_index)
    let c2 := if c1.valid bank addr_index = true ∧ c1.dirty bank addr_index = true then
        { c1 with write_backs := c1.write_backs + 1 }
      else c1
    let c3 := { c2 with valid := upd2 c2.valid bank addr_index true,
                        dirty := upd2 c2.dirty bank addr_index false,
                        tag := upd2 c2.tag bank addr_index addr_tag }
    access_tail c3 addr_index bank ty

/-- Fold a list of (address, type) accesses over a freshly initialized
cache. -/
def run_cache (l : List (Nat × Nat)) : Cache :=
  l.foldl (fun cc p => cache_access cc p.1 p.2) cache_init

/-- Stated from the specification text: the spec's CMP overflow rule,
V = (sign(src) ≠ sign(dst)) ∧ (sign(result) ≠ sign(src)). -/
def spec_cmp_v (s d r : Nat) : Bool :=
  (s.testBit 15 != d.testBit 15) && (r.testBit 15 != s.testBit 15)

/-- Stated from the specification text: the spec's ASR overflow rule,
V = sign(old) XOR bit 0 of the new value. -/
def spec_asr_v (old new : Nat) : Bool := old.testBit 15 != new.testBit 0

/-- Stored destination value of MOV as the code computes it: the full
16-bit source value, except that a mode-0 destination with register above 0
receives only the low byte of the source sign-extended into bits 15-8. -/
def mov_stored (sv mode rg : Nat) : Nat :=
  if mode = 0 ∧ rg ≠ 0 then
    (if sv.testBit 7 = true then (sv &&& 0x00FF) ||| 0xFF00 else sv &&& 0x00FF)
  else sv

/-- Machine whose registers are all zero, memory all zero, flags clear. -/
def zero_machine : Machine :=
  { memory := fun _ => 0, reg := fun _ => 0,
    n := false, z := false, v := false, c := false, running := true,
    memory_reads := 0, memory_writes := 0, inst_fetches := 0, inst_execs := 0,
    branch_taken := 0, branch_execs := 0 }

/-- Machine state just before the SOB of claim C1: R0 = 5, R1 = 7, PC = 6
(the PC value after fetching a SOB word at byte address 4). -/
def c1_machine : Machine :=
  { zero_machine with reg := fun i => if i = 0 then 5 else if i = 1 then 7 else if i = 7 then 6 else 0 }

/-- Machine with R0 = 0x8000 used for the CMP claims. -/
def c2_machine : Machine :=
  { zero_machine with reg := fun i => if i = 0 then 32768 else 0 }

/-- Machine with R0 = 256 and R1 = 7 used for the MOV claims. -/
def c3_machine : Machine :=
  { zero_machine with reg := fun i => if i = 0 then 256 else if i = 1 then 7 else 0 }

/-- Machine with R0 = 2 used for the ASR claims. -/
def c4_machine : Machine :=
  { zero_machine with reg := fun i => if i = 0 then 2 else 0 }

/-- Machine state after resolving a mode-6 register-0 operand on
`zero_machine`: one instruction fetch, one memory read, PC advanced to 2. -/
def c5_after : Machine :=
  { zero_machine with inst_fetches := 1, memory_reads := 1, reg := upd zero_machine.reg 7 2 }

/-- Machine whose memory holds 10 at address 0 and 42 at address 10, used
for the mode-3 register-7 (absolute) counterexample. -/
def c5x_machine : Machine :=
  { zero_machine with memory := fun a => if a = 0 then 10 else if a = 10 then 42 else 0 }

/-- Machine whose memory holds 40000 at address 0, used for the mode-7
out-of-range index counterexample. -/
def c6x_machine : Machine :=
  { zero_machine with memory := fun a => if a = 0 then 40000 else 0 }

/-- Machine state after `step` executes the lone HALT program: PC = 2, not
running, one instruction executed and fetched. -/
def c8_after : Machine :=
  { init_machine [0] with reg := upd (init_machine [0]).reg 7 2, running := false,
                          inst_execs := 1, inst_fetches := 1 }

/-- Machine state after ASR R0 writes back on `c4_machine`. -/
def c4_after : Machine :=
  { c4_machine with reg := upd c4_machine.reg 0 (asr_result 2 % 65536) }

lemma decide_and_msb (s : Nat) : decide (s &&& 0x8000 ≠ 0) = s.testBit 15 := by
  rw [show (0x8000 : Nat) = 2 ^ 15 from by norm_num, Nat.and_two_pow]
  cases hb : s.testBit 15 <;> simp

lemma decide_and_msb_shift (s : Nat) : decide ((s &&& 0x8000) >>> 15 ≠ 0) = s.testBit 15 := by
  rw [show (0x8000 : Nat) = 2 ^ 15 from by norm_num, Nat.and_two_pow]
  cases hb : s.testBit 15 <;> simp

lemma decide_and_msb_ne (s d : Nat) :
    decide ((s &&& 0x8000) ≠ (d &&& 0x8000)) = (s.testBit 15 != d.testBit 15) := by
  rw [show (0x8000 : Nat) = 2 ^ 15 from by norm_num, Nat.and_two_pow, Nat.and_two_pow]
  cases hs : s.testBit 15 <;> cases hd : d.testBit 15 <;> simp

lemma decide_and_lsb (s : Nat) : decide (s &&& 0x0001 ≠ 0) = s.testBit 0 := by
  rw [show (0x0001 : Nat) = 2 ^ 0 from by norm_num, Nat.and_two_pow]
  cases hb : s.testBit 0 <;> simp

lemma byte_sign_iff (s : Nat) : ((s &&& 0x00FF) &&& 0x0080 ≠ 0) ↔ s.testBit 7 = true := by
  rw [Nat.and_assoc, show (0x00FF &&& 0x0080 : Nat) = 2 ^ 7 from by decide, Nat.and_two_pow]
  cases hb : s.testBit 7 <;> simp

lemma asr_result_msb (old : Nat) (h : old < 65536) :
    (asr_result old).testBit 15 = old.testBit 15 := by
  have h16 : old.testBit 16 = false :=
    Nat.testBit_eq_false_of_lt (by norm_num; omega)
  have hm : Nat.testBit 0x8000 15 = true := by decide
  have hf : Nat.testBit 0xFFFF 15 = true := by decide
  simp [asr_result, Nat.testBit_land, Nat.testBit_lor, Nat.testBit_shiftRight, h16, hm, hf]

/-- C1: executing the SOB word 077001 (octal, = 32257), whose reg field in
bits 8:6 names R0 (last conjunct), decrements R1 — the register named by
bits 2:0 — instead of R0, which stays at 5.  The branch bookkeeping
(PC − 2·offset, branch counters) behaves as claimed.  This evaluates the
code at the failing input of the claim's scenario. -/
theorem sob_register_selection_bug :
    (sob c1_machine 32257).reg 0 = 5 ∧ (sob c1_machine 32257).reg 1 = 6 ∧
    (sob c1_machine 32257).reg 7 = 4 ∧ (sob c1_machine 32257).branch_execs = 1 ∧
    (sob c1_machine 32257).branch_taken = 1 ∧ (32257 >>> 6) &&& 0x0007 = 0 := by
  decide

/-- C7: running the single-word image 000000 (a lone HALT) finishes the
driver loop cleanly with inst_execs = 1, inst_fetches = 1 and every other
counter 0 — but the percentage division of `pstats` then divides by
branch_execs = 0, which is undefined behavior in C, so the statistics
printing does not complete with exit code 0 as claimed. -/
theorem halt_minimal_execution :
    (finished_machine (run 2 (init_machine [0]))).map
        (fun m => (m.inst_execs, m.inst_fetches, m.memory_reads, m.memory_writes,
                   m.branch_execs, m.branch_taken)) = some (1, 1, 0, 0, 0, 0)
    ∧ (finished_machine (run 2 (init_machine [0]))).bind pstats_percent = none := by
  decide

/-- C10: for a destination phrase in mode 2 with register 7 (immediate
mode), both `put_operand` and `update_operand` return the machine
unchanged: no memory cell, no register and no counter is touched, and the
value to be stored is silently discarded. -/
theorem immediate_writeback_noop (m : Machine) (ph : AddrPhrase)
    (hm : ph.mode = 2) (hr : ph.reg = 7) :
    put_operand m ph = some m ∧ update_operand m ph = some m := by
  constructor
  · simp [put_operand, hm, hr]
  · simp [update_operand, hm, hr]

/-- Witness for C10 at the concrete phrase mode 2, register 7, value 99. -/
theorem immediate_writeback_noop_witness :
    put_operand zero_machine ⟨2, 7, 0, 99⟩ = some zero_machine ∧
    update_operand zero_machine ⟨2, 7, 0, 99⟩ = some zero_machine :=
  immediate_writeback_noop zero_machine ⟨2, 7, 0, 99⟩ rfl rfl

/-- C8 counterexample: executing MOV #3,R7 (words 012707 000003, i.e.
[5575, 3]) leaves the machine running with R7 = 3, an odd program counter,
so "R7 is even or execution has halted" fails as stated. -/
theorem pc_parity_counterexample :
    (next_machine (step (init_machine [5575, 3]))).map (fun m => (m.reg 7, m.running))
      = some (3, true)
    ∧ (3 : Nat) % 2 = 1 := by
  decide

/-- C8 (amended): after every executed instruction that continues
execution, R7 is less than MEMSIZE (the driver's bounds check exits
fatally otherwise); R7 need not be even. -/
theorem pc_in_bounds_after_step (m m2 : Machine) (h : step m = StepRes.next m2) :
    m2.reg 7 < MEMSIZE := by
  simp only [step] at h
  split at h
  · revert h
    cases operate { m with reg := upd m.reg 7 ((m.reg 7 + 2) % 65536) } (m.memory (m.reg 7)) with
    | none => intro h; exact absurd h (by simp)
    | some m3 =>
      show (if MEMSIZE ≤ m3.reg 7 then StepRes.fatal else StepRes.next m3) = StepRes.next m2 →
        m2.reg 7 < MEMSIZE
      by_cases hb : MEMSIZE ≤ m3.reg 7
      · rw [if_pos hb]
        intro h
        exact absurd h (by simp)
      · rw [if_neg hb]
        intro h
        injection h with h3
        subst h3
        omega
  · exact absurd h (by simp)

/-- Witness for C8's amended theorem on the lone-HALT program. -/
theorem pc_in_bounds_after_step_witness : c8_after.reg 7 < MEMSIZE :=
  pc_in_bounds_after_step (init_machine [0]) c8_after rfl

/-- C2 counterexample: CMP R0,R1 (word 020001 octal = 8193) with
R0 = 0x8000 and R1 = 0.  The result 0x8000 has the same sign as the
source, so the claimed rule V = (sign(s) ≠ sign(d)) ∧ (sign(result) ≠
sign(s)) gives false, but the code sets V = true. -/
theorem cmp_overflow_flag_counterexample :
    (cmp c2_machine 8193).map Machine.v = some true ∧
    spec_cmp_v 32768 0 (u16 ((32768 : Int) - 0)) = false := by
  decide

/-- C2 (amended): for every executed CMP with resolved source value s and
destination value d, the result (s − d) mod 2^16 is computed, the machine
is exactly the one left by operand resolution with only the flags changed
(the destination is not written), N = sign bit of the result,
Z = (result = 0), C = 1 exactly when unsigned s < unsigned d, and
V = (sign(s) ≠ sign(d)) — without the spec's second conjunct. -/
theorem cmp_flags_amended (m m1 m2 : Machine) (w : Nat) (sph dph : AddrPhrase)
    (h1 : get_operand m (src_phrase w) = some (m1, sph))
    (h2 : get_operand m1 (dst_phrase w) = some (m2, dph)) :
    cmp m w = some { m2 with
      n := (u16 ((sph.value : Int) - (dph.value : Int))).testBit 15,
      z := decide (u16 ((sph.value : Int) - (dph.value : Int)) = 0),
      v := (sph.value.testBit 15 != dph.value.testBit 15),
      c := decide (sph.value < dph.value) } := by
  simp only [cmp, h1, h2]
  rw [decide_and_msb, decide_and_msb_ne]

/-- Witness for C2's amended theorem: CMP R0,R1 on `c2_machine`. -/
theorem cmp_flags_amended_witness :
    cmp c2_machine 8193 = some { c2_machine with n := true, z := false, v := true, c := false } :=
  cmp_flags_amended c2_machine c2_machine c2_machine 8193 ⟨0, 0, 0, 32768⟩ ⟨0, 1, 0, 0⟩ rfl rfl

/-- C3 counterexample: MOV R0,R1 (word 010001 octal = 4097) with
R0 = 256 stores 0 into R1, not the full 16-bit source value 256: the code
keeps only the sign-extended low byte for register destinations other
than R0. -/
theorem mov_byte_truncation_counterexample :
    (mov c3_machine 4097).map (fun m => m.reg 1) = some 0 ∧ (0 : Nat) ≠ 256 := by
  decide

/-- C3 (amended): for every executed MOV, the destination receives the
full 16-bit source value through `put_operand` — except when the
destination is mode 0 with register above 0, in which case it receives the
low byte of the source sign-extended into bits 15-8 (`mov_stored`) — and
the flags become N = sign of the stored value, Z = (stored = 0), V = 0,
C = 0. -/
theorem mov_amended (m m1 m2 : Machine) (w : Nat) (sph dph : AddrPhrase)
    (h1 : get_operand m (src_phrase w) = some (m1, sph))
    (h2 : get_operand m1 (dst_phrase w) = some (m2, dph)) :
    mov m w = (put_operand m2 { dph with value := mov_stored sph.value dph.mode dph.reg }).map
      (fun m3 => { m3 with
        n := (mov_stored sph.value dph.mode dph.reg).testBit 15,
        z := decide (mov_stored sph.value dph.mode dph.reg = 0),
        v := false, c := false }) := by
  have hv : (if dph.mode = 0 ∧ dph.reg ≠ 0 then
        (if (sph.value &&& 0x00FF) &&& 0x0080 ≠ 0 then (sph.value &&& 0x00FF) ||| 0xFF00
         else sph.value &&& 0x00FF)
      else sph.value) = mov_stored sph.value dph.mode dph.reg := by
    unfold mov_stored
    by_cases hc : dph.mode = 0 ∧ dph.reg ≠ 0
    · rw [if_pos hc, if_pos hc]
      exact if_congr (byte_sign_iff sph.value) rfl rfl
    · rw [if_neg hc, if_neg hc]
  simp only [mov, h1, h2]
  rw [hv]
  cases hput : put_operand m2 { dph with value := mov_stored sph.value dph.mode dph.reg } with
  | none => simp
  | some m3 =>
    simp only [Option.map_some']
    rw [decide_and_msb_shift]

/-- Witness for C3's amended theorem: MOV R0,R1 on `c3_machine`, where the
stored value is the truncated byte 0. -/
theorem mov_amended_witness :
    mov c3_machine 4097 = (put_operand c3_machine ⟨0, 1, 0, 0⟩).map
      (fun m3 => { m3 with n := false, z := true, v := false, c := false }) :=
  mov_amended c3_machine c3_machine c3_machine 4097 ⟨0, 0, 0, 256⟩ ⟨0, 1, 0, 7⟩ rfl rfl

/-- C4 counterexample: ASR R0 (word 006200 octal = 3200) with R0 = 2 gives
new value 1 with V = 0 from the code, while the claimed rule
V = sign(old) XOR bit 0 of the new value gives 1. -/
theorem asr_overflow_flag_counterexample :
    (asr c4_machine 3200).map Machine.v = some false ∧
    spec_asr_v 2 (asr_result 2) = true := by
  decide

/-- C4 (amended): for every executed ASR, the new destination value is the
old value shifted right by one with the high bit preserved (last
conjunct), N = sign(new), Z = (new = 0), C = bit 0 of the old value, and
V = (sign(old) XOR sign(new)) — which is always 0 because the high bit is
preserved — not sign(old) XOR bit 0 of the new value. -/
theorem asr_amended (m m1 m2 : Machine) (w : Nat) (dph : AddrPhrase)
    (h1 : get_operand m (dst_phrase w) = some (m1, dph))
    (hb : dph.value < 65536)
    (h2 : update_operand m1 { dph with value := asr_result dph.value } = some m2) :
    asr m w = some { m2 with
      n := (asr_result dph.value).testBit 15,
      z := decide (asr_result dph.value = 0),
      v := false,
      c := dph.value.testBit 0 }
    ∧ (asr_result dph.value).testBit 15 = dph.value.testBit 15 := by
  refine ⟨?_, asr_result_msb dph.value hb⟩
  simp only [asr, h1, h2]
  rw [decide_and_msb, decide_and_msb_ne, decide_and_lsb, asr_result_msb dph.value hb]
  simp

/-- Witness for C4's amended theorem: ASR R0 on `c4_machine`. -/
theorem asr_amended_witness :
    asr c4_machine 3200 = some { c4_after with n := false, z := false, v := false, c := false }
    ∧ (asr_result 2).testBit 15 = (2 : Nat).testBit 15 :=
  asr_amended c4_machine c4_machine c4_after 3200 ⟨0, 0, 0, 2⟩ rfl (by decide) rfl

lemma get_operand_field_bounds (m : Machine) (ph : AddrPhrase) (x : Machine × AddrPhrase)
    (h : get_operand m ph = some x) : ph.mode ≤ 7 ∧ ph.reg ≤ 7 := by
  unfold get_operand at h
  split at h
  · assumption
  · exact absurd h (by simp)

lemma counters_mode2_pc (m m2 : Machine) (ph ph2 : AddrPhrase)
    (hmo : ph.mode = 2) (hrg : ph.reg = 7) (h : get_operand m ph = some (m2, ph2)) :
    m2.inst_fetches = m.inst_fetches + 1 ∧ m2.memory_reads = m.memory_reads := by
  obtain ⟨mo, rg, ad, vl⟩ := ph
  simp only at hmo hrg
  subst hmo; subst hrg
  simp only [get_operand] at h
  norm_num at h
  obtain ⟨h1, hm2, hp2⟩ := h
  subst hm2
  exact ⟨rfl, rfl⟩

lemma counters_mode3_pc (m m2 : Machine) (ph ph2 : AddrPhrase)
    (hmo : ph.mode = 3) (hrg : ph.reg = 7) (h : get_operand m ph = some (m2, ph2)) :
    m2.inst_fetches = m.inst_fetches + 1 ∧ m2.memory_reads = m.memory_reads + 2 := by
  obtain ⟨mo, rg, ad, vl⟩ := ph
  simp only at hmo hrg
  subst hmo; subst hrg
  simp only [get_operand] at h
  norm_num at h
  obtain ⟨h1, h2, hm2, hp2⟩ := h
  subst hm2
  exact ⟨rfl, rfl⟩

lemma counters_mode6 (m m2 : Machine) (ph ph2 : AddrPhrase)
    (hmo : ph.mode = 6) (hrg : ph.reg ≤ 7) (h : get_operand m ph = some (m2, ph2)) :
    m2.inst_fetches = m.inst_fetches + 1 ∧ m2.memory_reads = m.memory_reads + 1 := by
  obtain ⟨mo, rg, ad, vl⟩ := ph
  simp only at hmo hrg
  subst hmo
  simp only [get_operand] at h
  norm_num [hrg] at h
  split at h
  all_goals
    obtain ⟨h1, h2, hm2, hp2⟩ := h
    subst hm2
    exact ⟨rfl, rfl⟩

lemma counters_mode7 (m m2 : Machine) (ph ph2 : AddrPhrase)
    (hmo : ph.mode = 7) (hrg : ph.reg ≤ 7) (h : get_operand m ph = some (m2, ph2)) :
    m2.inst_fetches = m.inst_fetches + 1 ∧ m2.memory_reads = m.memory_reads + 2 := by
  obtain ⟨mo, rg, ad, vl⟩ := ph
  simp only at hmo hrg
  subst hmo
  simp only [get_operand] at h
  norm_num [hrg] at h
  split at h
  all_goals norm_num [MEMSIZE] at h
  all_goals
    obtain ⟨h1, h2, h3, hm2, hp2⟩ := h
    subst hm2
    exact ⟨rfl, rfl⟩

/-- C5 counterexample: resolving a mode-3 register-7 (absolute) operand on
`c5x_machine` increments memory_reads by 2, not by the single operand-value
read: the absolute-address word consumed from the instruction stream
increments `memory_reads` as well as `inst_fetches`, contradicting the
claim that such words do not increment `memory_reads`. -/
theorem absolute_fetch_counterexample :
    (get_operand c5x_machine ⟨3, 7, 0, 0⟩).map
        (fun p => (p.1.inst_fetches, p.1.memory_reads)) = some (1, 2)
    ∧ (2 : Nat) ≠ 1 := by
  decide

/-- C5 (amended): every successful operand resolution in mode 2 with
reg 7, mode 3 with reg 7, and modes 6 and 7 increments `inst_fetches` by
exactly 1 for the word consumed from the instruction stream.  Mode 2
reg 7 adds no memory reads and modes 6 and 7 add only the 1 resp. 2 data
reads of the operand itself — but mode 3 with reg 7 adds 2 memory reads
for a single data value: the consumed absolute-address word is counted in
`memory_reads` too. -/
theorem operand_fetch_accounting_amended (m : Machine) (ph : AddrPhrase)
    (m2 : Machine) (ph2 : AddrPhrase) (h : get_operand m ph = some (m2, ph2)) :
    (ph.mode = 2 ∧ ph.reg = 7 →
      m2.inst_fetches = m.inst_fetches + 1 ∧ m2.memory_reads = m.memory_reads)
    ∧ (ph.mode = 3 ∧ ph.reg = 7 →
      m2.inst_fetches = m.inst_fetches + 1 ∧ m2.memory_reads = m.memory_reads + 2)
    ∧ (ph.mode = 6 →
      m2.inst_fetches = m.inst_fetches + 1 ∧ m2.memory_reads = m.memory_reads + 1)
    ∧ (ph.mode = 7 →
      m2.inst_fetches = m.inst_fetches + 1 ∧ m2.memory_reads = m.memory_reads + 2) := by
  have hb := get_operand_field_bounds m ph (m2, ph2) h
  exact ⟨fun hc => counters_mode2_pc m m2 ph ph2 hc.1 hc.2 h,
         fun hc => counters_mode3_pc m m2 ph ph2 hc.1 hc.2 h,
         fun hc => counters_mode6 m m2 ph ph2 hc hb.2 h,
         fun hc => counters_mode7 m m2 ph ph2 hc hb.2 h⟩

/-- Witness for C5's amended theorem: a mode-6 register-0 operand on
`zero_machine`. -/
theorem operand_fetch_accounting_amended_witness :
    ((6 = 2 ∧ 0 = 7 →
      c5_after.inst_fetches = zero_machine.inst_fetches + 1
        ∧ c5_after.memory_reads = zero_machine.memory_reads)
    ∧ (6 = 3 ∧ 0 = 7 →
      c5_after.inst_fetches = zero_machine.inst_fetches + 1
        ∧ c5_after.memory_reads = zero_machine.memory_reads + 2)
    ∧ (6 = 6 →
      c5_after.inst_fetches = zero_machine.inst_fetches + 1
        ∧ c5_after.memory_reads = zero_machine.memory_reads + 1)
    ∧ (6 = 7 →
      c5_after.inst_fetches = zero_machine.inst_fetches + 1
        ∧ c5_after.memory_reads = zero_machine.memory_reads + 2)) :=
  operand_fetch_accounting_amended zero_machine ⟨6, 0, 0, 0⟩ c5_after ⟨6, 0, 0, 0⟩ rfl

/-- C6 counterexample: on `c6x_machine` the mode-7 register-0 index
computation produces the effective address 40000 ≥ MEMSIZE, yet operand
resolution succeeds: the code wraps the address into range (40000 mod
32768 = 7232) instead of terminating fatally. -/
theorem index_deferred_wrap_counterexample :
    c6x_machine.memory (c6x_machine.reg 7) + c6x_machine.reg 0 = 40000
    ∧ MEMSIZE ≤ 40000
    ∧ (get_operand c6x_machine ⟨7, 0, 0, 0⟩).isSome = true := by
  decide

/-- C6 (amended): every successful operand resolution in an
address-carrying mode (mode ≥ 1) yields an effective address below the
memory size — an out-of-range effective address terminates fatally — with
the single exception shown by the counterexample: in mode 7 with reg ≠ 7
the index sum is first reduced modulo MEMSIZE (wrapped) instead of
faulting, and only the wrapped deferred address is bounds-checked. -/
theorem effective_address_bound_amended (m : Machine) (ph : AddrPhrase)
    (m2 : Machine) (ph2 : AddrPhrase)
    (hmode : 1 ≤ ph.mode) (h : get_operand m ph = some (m2, ph2)) :
    ph2.addr < MEMSIZE := by
  have hb := get_operand_field_bounds m ph (m2, ph2) h
  obtain ⟨mo, rg, ad, vl⟩ := ph
  obtain ⟨hmo7, hrg7⟩ := hb
  simp only at hmode hmo7 hrg7
  interval_cases mo
  all_goals simp only [get_operand] at h
  all_goals norm_num [hrg7] at h
  all_goals first
    | (split at h <;> norm_num [MEMSIZE] at h) <;>
      first
        | (obtain ⟨h1, h2, h3, hm2, hp2⟩ := h; subst hp2;
           first | exact h1 | exact h2 | exact h3 | norm_num [MEMSIZE])
        | (obtain ⟨h1, h2, hm2, hp2⟩ := h; subst hp2;
           first | exact h1 | exact h2 | norm_num [MEMSIZE])
        | (obtain ⟨h1, hm2, hp2⟩ := h; subst hp2;
           first | exact h1 | norm_num [MEMSIZE])
    | first
        | (obtain ⟨h1, h2, h3, hm2, hp2⟩ := h; subst hp2;
           first | exact h1 | exact h2 | exact h3 | norm_num [MEMSIZE])
        | (obtain ⟨h1, h2, hm2, hp2⟩ := h; subst hp2;
           first | exact h1 | exact h2 | norm_num [MEMSIZE])
        | (obtain ⟨h1, hm2, hp2⟩ := h; subst hp2;
           first | exact h1 | norm_num [MEMSIZE])

/-- Witness for C6's amended theorem: a mode-1 register-0 operand on
`zero_machine` resolves to effective address 0 < MEMSIZE. -/
theorem effective_address_bound_amended_witness :
    1 ≤ (AddrPhrase.mk 1 0 0 0).mode ∧ (AddrPhrase.mk 1 0 0 0).addr < MEMSIZE :=
  ⟨by decide,
   effective_address_bound_amended zero_machine ⟨1, 0, 0, 0⟩
     { zero_machine with memory_reads := 1 } ⟨1, 0, 0, 0⟩ (by decide) rfl⟩

lemma cache_access_same_line_hit (cc : Cache) (a ty t s : Nat)
    (ht : a >>> 10 = t) (hs : (a >>> 5) &&& 0x1f = s)
    (hv : cc.valid 0 s = true) (htag : cc.tag 0 s = t) :
    (cache_access cc a ty).valid 0 s = true ∧ (cache_access cc a ty).tag 0 s = t ∧
    (cache_access cc a ty).hits = cc.hits + 1 ∧ (cache_access cc a ty).misses = cc.misses ∧
    (cache_access cc a ty).write_backs = cc.write_backs := by
  by_cases hty : ty = 0
  · simp [cache_access, access_tail, hv, htag, ht, hs, hty, upd, upd2]
  · by_cases hty1 : ty = 1
    · simp [cache_access, access_tail, hv, htag, ht, hs, hty1, upd, upd2]
    · simp [cache_access, access_tail, hv, htag, ht, hs, hty, hty1, upd, upd2]

lemma cache_access_cold_start (a ty t s : Nat)
    (ht : a >>> 10 = t) (hs : (a >>> 5) &&& 0x1f = s) :
    (cache_access cache_init a ty).valid 0 s = true ∧ (cache_access cache_init a ty).tag 0 s = t ∧
    (cache_access cache_init a ty).hits = 0 ∧ (cache_access cache_init a ty).misses = 1 ∧
    (cache_access cache_init a ty).write_backs = 0 := by
  by_cases hty : ty = 0
  · simp [cache_access, access_tail, cache_init, ht, hs, hty, upd, upd2]
  · by_cases hty1 : ty = 1
    · simp [cache_access, access_tail, cache_init, ht, hs, hty1, upd, upd2]
    · simp [cache_access, access_tail, cache_init, ht, hs, hty, hty1, upd, upd2]

lemma run_from_hit (l : List (Nat × Nat)) (t s : Nat) (cc : Cache)
    (hl : ∀ p ∈ l, p.1 >>> 10 = t ∧ (p.1 >>> 5) &&& 0x1f = s)
    (hv : cc.valid 0 s = true) (htag : cc.tag 0 s = t) :
    (l.foldl (fun c p => cache_access c p.1 p.2) cc).valid 0 s = true ∧
    (l.foldl (fun c p => cache_access c p.1 p.2) cc).tag 0 s = t ∧
    (l.foldl (fun c p => cache_access c p.1 p.2) cc).hits = cc.hits + l.length ∧
    (l.foldl (fun c p => cache_access c p.1 p.2) cc).misses = cc.misses ∧
    (l.foldl (fun c p => cache_access c p.1 p.2) cc).write_backs = cc.write_backs := by
  induction l generalizing cc with
  | nil => simpa using ⟨hv, htag⟩
  | cons p rest ih =>
    obtain ⟨hpt, hps⟩ := hl p (by simp)
    have hstep := cache_access_same_line_hit cc p.1 p.2 t s hpt hps hv htag
    have hrest := ih (cache_access cc p.1 p.2) (fun q hq => hl q (by simp [hq]))
      hstep.1 hstep.2.1
    rw [List.foldl_cons]
    refine ⟨hrest.1, hrest.2.1, ?_, ?_, ?_⟩
    · rw [hrest.2.2.1, hstep.2.2.1]
      simp [List.length_cons]
      omega
    · rw [hrest.2.2.2.1, hstep.2.2.2.1]
    · rw [hrest.2.2.2.2, hstep.2.2.2.2]

/-- C9: starting from `cache_init`, any nonempty sequence of accesses
(reads or writes) whose addresses all share one tag and one set index
produces exactly 1 miss, N − 1 hits and 0 write-backs: the first access
installs the line in bank 0 and every later access hits it. -/
theorem same_line_accesses_hit_after_first (t s : Nat) (l : List (Nat × Nat))
    (hne : l ≠ [])
    (hl : ∀ p ∈ l, p.1 >>> 10 = t ∧ (p.1 >>> 5) &&& 0x1f = s) :
    (run_cache l).misses = 1 ∧ (run_cache l).hits = l.length - 1 ∧
    (run_cache l).write_backs = 0 := by
  match l, hne with
  | p :: rest, _ =>
    obtain ⟨hpt, hps⟩ := hl p (by simp)
    have h0 := cache_access_cold_start p.1 p.2 t s hpt hps
    have h1 := run_from_hit rest t s (cache_access cache_init p.1 p.2)
      (fun q hq => hl q (by simp [hq])) h0.1 h0.2.1
    unfold run_cache
    rw [List.foldl_cons]
    refine ⟨?_, ?_, ?_⟩
    · rw [h1.2.2.2.1, h0.2.2.2.1]
    · rw [h1.2.2.1, h0.2.2.1]
      simp
    · rw [h1.2.2.2.2, h0.2.2.2.2]

/-- Witness for C9: two reads of address 0 after `cache_init` give 1 miss,
1 hit, 0 write-backs (the spec's cold-miss-then-hit scenario). -/
theorem same_line_accesses_hit_after_first_witness :
    (run_cache [(0, 0), (0, 0)]).misses = 1 ∧
    (run_cache [(0, 0), (0, 0)]).hits = 1 ∧
    (run_cache [(0, 0), (0, 0)]).write_backs = 0 :=
  same_line_accesses_hit_after_first 0 0 [(0, 0), (0, 0)] (by simp) (by decide)

end PDP11
